import Mathlib

/-!
Verification of the gmes FDTD engine (src/gmes/fdtd.py) against its
natural-language specification.  The Python module is shallowly embedded:
field arrays become functions over index triples, the per-cell update-rule
objects become records carrying an index and a rule function, the thread
fork-join batches of `step`/`init_material`/`init_source` become explicit
event lists or sequential folds over shared storage, and the floating-point
time bookkeeping is carried out over `ℚ` (the source only ever adds halves —
or, in the TEM variants, fives — and multiplies by `dt`, so rationals model
it exactly).
-/

namespace Gmes

/-- A grid index: an ordered triple of naturals (numpy `ndindex` tuples). -/
abbrev Idx3 := Nat × Nat × Nat

/-- A physical coordinate triple in simulation space. -/
abbrev Coord := ℚ × ℚ × ℚ

/-- A field storage array (`self.ex` … `self.hz`), modelled as a total map
from indices to rational samples. -/
abbrev Arr := Idx3 → ℚ

/-- `TimeStep` (fdtd.py lines 16–22): the half-step counter `n` and derived
time `t`. -/
structure TimeStep where
  n : ℚ
  t : ℚ
deriving DecidableEq

/-- The ten engine classes of fdtd.py: the full 3D `FDTD`, the 2D
transverse-electric and transverse-magnetic variants, and the 1D
transverse-electromagnetic variants. -/
inductive Engine
  | fdtd3d | tex | tey | tez | tmx | tmy | tmz | temx | temy | temz
deriving DecidableEq

/-- The first time advance inside each engine's `step()` (the statements
between the E-batch join and the H-batch fork).  Every 2D/3D engine executes
`self.time_step.n += .5; self.time_step.t = self.time_step.n * self.dt`;
the three TEM variants execute `self.time_step.n += 5` (fdtd.py lines
843–844, 882–883, 921–922) followed by the same `t` assignment. -/
def phase1Time (e : Engine) (dt : ℚ) (ts : TimeStep) : TimeStep :=
  match e with
  | .temx | .temy | .temz => ⟨ts.n + 5, (ts.n + 5) * dt⟩
  | _ => ⟨ts.n + 1/2, (ts.n + 1/2) * dt⟩

/-- The second time advance inside each engine's `step()` (after the H-batch
join).  As `phase1Time`, except that `TEzFDTD.step` executes
`self.time_step.t += self.dt` instead of `t = n * dt` (fdtd.py line 663). -/
def phase2Time (e : Engine) (dt : ℚ) (ts : TimeStep) : TimeStep :=
  match e with
  | .temx | .temy | .temz => ⟨ts.n + 5, (ts.n + 5) * dt⟩
  | .tez => ⟨ts.n + 1/2, ts.t + dt⟩
  | _ => ⟨ts.n + 1/2, (ts.n + 1/2) * dt⟩

/-- The net effect of one `step()` call on the time state. -/
def stepTime (e : Engine) (dt : ℚ) (ts : TimeStep) : TimeStep :=
  phase2Time e dt (phase1Time e dt ts)

/-- A pointwise material object, one entry of a material grid
(`pointwise_material` module): bound to one grid index, exposing
`update(field, f1, f2, dt, d1, d2)` which recomputes the field sample at
its own index from the field array, the two partner arrays and the three
scalars. -/
structure PwMat where
  idx : Idx3
  rule : Arr → Arr → Arr → ℚ → ℚ → ℚ → ℚ

/-- One `mo.update(field, f1, f2, dt, d1, d2)` call: the field array is
mutated in place at `mo.idx`; nothing else changes. -/
def applyMat (mo : PwMat) (field f1 f2 : Arr) (dt d1 d2 : ℚ) : Arr :=
  fun j => if j = mo.idx then mo.rule field f1 f2 dt d1 d2 else field j

/-- A full update pass (`for mo in self.material_xx.flat: mo.update(...)`):
fold over the flattened material grid, mutating the component's own array in
place while the two partner arrays stay fixed. -/
def updatePass (mats : List PwMat) (field f1 f2 : Arr) (dt d1 d2 : ℚ) : Arr :=
  mats.foldl (fun f mo => applyMat mo f f1 f2 dt d1 d2) field

/-- The mutable engine state an update pass touches: the six field storage
arrays, the six (flattened) material grids, the cell widths, the time step,
and the time state. -/
structure FDTDState where
  ex : Arr
  ey : Arr
  ez : Arr
  hx : Arr
  hy : Arr
  hz : Arr
  matEx : List PwMat
  matEy : List PwMat
  matEz : List PwMat
  matHx : List PwMat
  matHy : List PwMat
  matHz : List PwMat
  dx : ℚ
  dy : ℚ
  dz : ℚ
  dt : ℚ
  ts : TimeStep

/-- `FDTD.update_ex` (lines 235–239): `mo.update(self.ex, self.hz, self.hy,
self.dt, self.dy, self.dz)` for every material object. -/
def update_ex (s : FDTDState) : FDTDState :=
  { s with ex := updatePass s.matEx s.ex s.hz s.hy s.dt s.dy s.dz }

/-- `FDTD.update_ey` (lines 241–245): `mo.update(self.ey, self.hx, self.hz,
self.dt, self.dz, self.dx)`. -/
def update_ey (s : FDTDState) : FDTDState :=
  { s with ey := updatePass s.matEy s.ey s.hx s.hz s.dt s.dz s.dx }

/-- `FDTD.update_ez` (lines 247–251): `mo.update(self.ez, self.hy, self.hx,
self.dt, self.dx, self.dy)`. -/
def update_ez (s : FDTDState) : FDTDState :=
  { s with ez := updatePass s.matEz s.ez s.hy s.hx s.dt s.dx s.dy }

/-- `FDTD.update_hx` (lines 253–257): `mo.update(self.hx, self.ez, self.ey,
self.dt, self.dy, self.dz)`. -/
def update_hx (s : FDTDState) : FDTDState :=
  { s with hx := updatePass s.matHx s.hx s.ez s.ey s.dt s.dy s.dz }

/-- `FDTD.update_hy` (lines 259–263): `mo.update(self.hy, self.ex, self.ez,
self.dt, self.dz, self.dx)`. -/
def update_hy (s : FDTDState) : FDTDState :=
  { s with hy := updatePass s.matHy s.hy s.ex s.ez s.dt s.dz s.dx }

/-- `FDTD.update_hz` (lines 265–269): `mo.update(self.hz, self.ey, self.ex,
self.dt, self.dx, self.dy)`. -/
def update_hz (s : FDTDState) : FDTDState :=
  { s with hz := updatePass s.matHz s.hz s.ey s.ex s.dt s.dx s.dy }

/-- The six field components. -/
inductive Component
  | ex | ey | ez | hx | hy | hz
deriving DecidableEq

/-- Dispatch from a component to the engine's update method for it. -/
def componentUpdate : Component → FDTDState → FDTDState
  | .ex => update_ex
  | .ey => update_ey
  | .ez => update_ez
  | .hx => update_hx
  | .hy => update_hy
  | .hz => update_hz

/-- Read one component's field storage array. -/
def getField : Component → FDTDState → Arr
  | .ex => FDTDState.ex
  | .ey => FDTDState.ey
  | .ez => FDTDState.ez
  | .hx => FDTDState.hx
  | .hy => FDTDState.hy
  | .hz => FDTDState.hz

/-- Read one component's material grid. -/
def getMats : Component → FDTDState → List PwMat
  | .ex => FDTDState.matEx
  | .ey => FDTDState.matEy
  | .ez => FDTDState.matEz
  | .hx => FDTDState.matHx
  | .hy => FDTDState.matHy
  | .hz => FDTDState.matHz

/-- Replace one component's field storage array. -/
def setField : Component → FDTDState → Arr → FDTDState
  | .ex, s, a => { s with ex := a }
  | .ey, s, a => { s with ey := a }
  | .ez, s, a => { s with ez := a }
  | .hx, s, a => { s with hx := a }
  | .hy, s, a => { s with hy := a }
  | .hz, s, a => { s with hz := a }

/-- The curl-partner table as the spec states it (§4.3): the two transverse
field arrays each component's update reads. -/
def curlPartners : Component → Component × Component
  | .ex => (.hz, .hy)
  | .ey => (.hx, .hz)
  | .ez => (.hy, .hx)
  | .hx => (.ez, .ey)
  | .hy => (.ex, .ez)
  | .hz => (.ey, .ex)

/-- The spacing table as the spec states it (§4.3): the two cell widths each
component's update receives. -/
def curlSpacings (c : Component) (s : FDTDState) : ℚ × ℚ :=
  match c with
  | .ex => (s.dy, s.dz)
  | .ey => (s.dz, s.dx)
  | .ez => (s.dx, s.dy)
  | .hx => (s.dy, s.dz)
  | .hy => (s.dz, s.dx)
  | .hz => (s.dx, s.dy)

/-- The update pass as the spec describes it: every rule of the component's
material grid is invoked with the component's own array, its two curl
partners, the time step and its two spacings. -/
def specCurlUpdate (c : Component) (s : FDTDState) : FDTDState :=
  setField c s
    (updatePass (getMats c s) (getField c s)
      (getField (curlPartners c).1 s) (getField (curlPartners c).2 s)
      s.dt (curlSpacings c s).1 (curlSpacings c s).2)

/-- `TEMxFDTD.step` (fdtd.py lines 840–849): `update_ey`, then
`n += 5; t = n * dt`, then `update_hz`, then `n += 5; t = n * dt` — all
sequential, no thread fan-out in this variant. -/
def temxStep (s : FDTDState) : FDTDState :=
  let s1 := update_ey s
  let s2 := { s1 with ts := ⟨s1.ts.n + 5, (s1.ts.n + 5) * s1.dt⟩ }
  let s3 := update_hz s2
  { s3 with ts := ⟨s3.ts.n + 5, (s3.ts.n + 5) * s3.dt⟩ }

/-- An observable event of an `FDTD.step()` call: a field-component update,
one of the file-export methods, or a time-state advance.  Each fan-out of
`step` starts six threads and joins them all before continuing; the threads
of one batch may interleave arbitrarily, so a concrete execution linearises
each batch as some permutation of its task list, and the join barrier places
everything of the first batch before everything of the second. -/
inductive Ev
  | updE : Component → Ev
  | updH : Component → Ev
  | writeE : Component → Ev
  | writeH : Component → Ev
  | advance : Ev
deriving DecidableEq

/-- Whether an event is an electric-field update. -/
def Ev.isUpdE : Ev → Bool
  | .updE _ => true
  | _ => false

/-- Whether an event is a magnetic-field update. -/
def Ev.isUpdH : Ev → Bool
  | .updH _ => true
  | _ => false

/-- The first thread batch of `FDTD.step` (lines 272–284): `update_ex`,
`update_ey`, `update_ez`, `write_hx`, `write_hy`, `write_hz`. -/
def ePhaseBatch : List Ev :=
  [.updE .ex, .updE .ey, .updE .ez, .writeH .hx, .writeH .hy, .writeH .hz]

/-- The second thread batch of `FDTD.step` (lines 289–301): `update_hx`,
`update_hy`, `update_hz`, `write_ex`, `write_ey`, `write_ez`. -/
def hPhaseBatch : List Ev :=
  [.updH .hx, .updH .hy, .updH .hz, .writeE .ex, .writeE .ey, .writeE .ez]

/-- The linearised trace of one `FDTD.step` call whose two batches were
scheduled as `t1` and `t2`: first batch, join, time advance, second batch,
join, time advance. -/
def stepTrace (t1 t2 : List Ev) : List Ev :=
  t1 ++ Ev.advance :: (t2 ++ [Ev.advance])

/-- In an event trace, every electric-field update is positioned strictly
before every magnetic-field update. -/
def PhaseOrdered (tr : List Ev) : Prop :=
  ∀ i j (hi : i < tr.length) (hj : j < tr.length),
    (tr.get ⟨i, hi⟩).isUpdE = true → (tr.get ⟨j, hj⟩).isUpdH = true → i < j

/-- The index triples of `ndindex(a, b, c)` in iteration order (row-major,
last coordinate fastest). -/
def rangeIdx (a b c : Nat) : List Idx3 :=
  ((List.range a).map (fun i =>
    ((List.range b).map (fun j =>
      (List.range c).map (fun k => (i, j, k)))).flatten)).flatten

/-- The value stored in one material-grid cell during construction: either a
boundary stub (`DummyEx(idx, 1)` …, from the external `pointwise_material`
module, represented symbolically by its component and index) or the
pointwise rule the covering geometric object's material produces for the
cell (`geom_obj.material.get_pointwise_material_xx(idx, co)`, also symbolic
since the material catalog is external — what matters is which object, index
and coordinate it is asked for). -/
inductive Cell
  | dummy (c : Component) (idx : Idx3)
  | fromMaterial (c : Component) (obj : Nat) (idx : Idx3) (co : Coord)
deriving DecidableEq

/-- A per-component material grid under construction: `none` marks a cell
the construction loop has not assigned. -/
abbrev MatGrid := Idx3 → Option Cell

/-- The external services `init_material_xx` consults: the discretization's
per-component index→coordinate map (`space.ex_index_to_space` …) and the
geometry tree's point classifier (`self.geom_tree.object_of_point`,
returning the covering geometric object, here by id). -/
structure MatCfg where
  indexToSpace : Component → Idx3 → Coord
  objectOfPoint : Coord → Nat

/-- The boundary test of `init_material_xx`, literally per component —
Ex: `idx[1] == shape[1]-1 or idx[2] == shape[2]-1` (line 93);
Ey: `idx[2] == shape[2]-1 or idx[0] == shape[0]-1` (line 109);
Ez: `idx[0] == shape[0]-1 or idx[1] == shape[1]-1` (line 125);
Hx: `idx[1] == 0 or idx[2] == 0` (line 141);
Hy: `idx[2] == 0 or idx[0] == 0` (line 157);
Hz: `idx[0] == 0 or idx[1] == 0` (line 173). -/
def srcBoundary (c : Component) (shape idx : Idx3) : Bool :=
  match c with
  | .ex => idx.2.1 == shape.2.1 - 1 || idx.2.2 == shape.2.2 - 1
  | .ey => idx.2.2 == shape.2.2 - 1 || idx.1 == shape.1 - 1
  | .ez => idx.1 == shape.1 - 1 || idx.2.1 == shape.2.1 - 1
  | .hx => idx.2.1 == 0 || idx.2.2 == 0
  | .hy => idx.2.2 == 0 || idx.1 == 0
  | .hz => idx.1 == 0 || idx.2.1 == 0

/-- Store a rule into a material grid at one index
(`self.material_xx[idx] = ...`). -/
def writeCell (g : MatGrid) (idx : Idx3) (v : Cell) : MatGrid :=
  fun j => if j = idx then some v else g j

/-- `FDTD.init_material_xx` (lines 85–179): iterate `ndindex(shape)` in
order; at each index store the dummy stub when the component's boundary test
holds, and otherwise the rule produced by the covering object's material for
the index and its physical coordinate.  The grid starts unassigned so the
result records exactly which cells the loop writes. -/
def initMaterialComp (c : Component) (cfg : MatCfg) (shape : Idx3) : MatGrid :=
  (rangeIdx shape.1 shape.2.1 shape.2.2).foldl
    (fun g idx =>
      if srcBoundary c shape idx then
        writeCell g idx (Cell.dummy c idx)
      else
        writeCell g idx
          (Cell.fromMaterial c (cfg.objectOfPoint (cfg.indexToSpace c idx))
            idx (cfg.indexToSpace c idx)))
    (fun _ => none)

/-- Whether a component is electric. -/
def Component.isElectric : Component → Bool
  | .ex | .ey | .ez => true
  | _ => false

/-- The two transverse index positions of a component (the grid axes
orthogonal to the component's own orientation), read off an index triple. -/
def transverseIdx : Component → Idx3 → Nat × Nat
  | .ex, idx => (idx.2.1, idx.2.2)
  | .hx, idx => (idx.2.1, idx.2.2)
  | .ey, idx => (idx.2.2, idx.1)
  | .hy, idx => (idx.2.2, idx.1)
  | .ez, idx => (idx.1, idx.2.1)
  | .hz, idx => (idx.1, idx.2.1)

/-- The boundary condition as the claim states it: an electric component's
cell is boundary when one of its two transverse indices is at the array's
upper edge (shape minus one), a magnetic component's cell when one of its
two transverse indices is zero. -/
def claimBoundary (c : Component) (shape idx : Idx3) : Bool :=
  if c.isElectric then
    (transverseIdx c idx).1 == (transverseIdx c shape).1 - 1 ||
    (transverseIdx c idx).2 == (transverseIdx c shape).2 - 1
  else
    (transverseIdx c idx).1 == 0 || (transverseIdx c idx).2 == 0

/-- A concrete material configuration used to evaluate the construction pass
at specific inputs. -/
def cfg0 : MatCfg :=
  ⟨fun _ idx => ((idx.1 : ℚ), (idx.2.1 : ℚ), (idx.2.2 : ℚ)), fun _ => 0⟩

/-- Modelled from the spec: the Geometry Classifier `object_of_point` lives
in geometric.py, which is not among the sources; per spec §4.1/§6 it returns
the geometric object covering a coordinate and fails (raises) when no object
in the geometry list covers it — modelled as an `Option` result. -/
structure MatCfgF where
  indexToSpace : Component → Idx3 → Coord
  objectOfPoint : Coord → Option Nat

/-- `init_material_xx` when classification can fail: the loop writes cells
in `ndindex` order; an uncovered coordinate raises, aborting the loop right
there, so cells already written stay (the grids are shared storage mutated
in place) and later cells stay unassigned.  The flag records whether the
worker raised. -/
def initMaterialCompF (c : Component) (cfg : MatCfgF) (shape : Idx3) :
    MatGrid × Bool :=
  (rangeIdx shape.1 shape.2.1 shape.2.2).foldl
    (fun p idx =>
      if p.2 then p
      else if srcBoundary c shape idx then
        (writeCell p.1 idx (Cell.dummy c idx), false)
      else
        match cfg.objectOfPoint (cfg.indexToSpace c idx) with
        | some obj =>
            (writeCell p.1 idx
              (Cell.fromMaterial c obj idx (cfg.indexToSpace c idx)), false)
        | none => (p.1, true))
    (fun _ => none, false)

/-- `FDTD.init_material` (lines 181–194) under CPython `threading.Thread`
semantics: an exception raised inside a thread's target terminates only that
thread — `Thread.join()` in the parent returns normally and the exception is
not re-raised there.  So the fork-join barrier always returns and the engine
keeps whatever each worker wrote before failing. -/
def initMaterialJoin (cfg : MatCfgF) (shapes : Component → Idx3) :
    Component → MatGrid :=
  fun c => (initMaterialCompF c cfg (shapes c)).1

/-- Whether the construction worker for a component raised a classification
error before finishing its loop. -/
def workerRaised (cfg : MatCfgF) (shapes : Component → Idx3)
    (c : Component) : Bool :=
  (initMaterialCompF c cfg (shapes c)).2

/-- The claim's propagation policy, as a proposition over the embedding:
whenever some worker's classification fails, the construction call aborts
without exposing any partially built state — no cell of any component's
grid is left assigned. -/
def NoPartialOnFailure (cfg : MatCfgF) (shapes : Component → Idx3) : Prop :=
  (∃ c, workerRaised cfg shapes c = true) →
    ∀ c idx, initMaterialJoin cfg shapes c idx = none

/-- A numeric tag per component, used to build a configuration whose
classifier fails only for one component's coordinates. -/
def tagC : Component → ℚ
  | .ex => 0 | .ey => 1 | .ez => 2 | .hx => 3 | .hy => 4 | .hz => 5

/-- A concrete fallible configuration: the classifier finds no covering
object exactly for Hx coordinates (first coordinate 3). -/
def cfgF8 : MatCfgF :=
  ⟨fun c idx => (tagC c, (idx.2.1 : ℚ), (idx.2.2 : ℚ)),
   fun co => if co.1 = 3 then none else some 0⟩

/-- Concrete per-component array shapes: 2 × 2 × 2 throughout. -/
def shapes8 : Component → Idx3 := fun _ => (2, 2, 2)

/-- A source object as the Source Injector uses it: per component, its
`set_pointwise_source_xx(material_xx, space)` call mutates that component's
material grid (the discretization argument is fixed for the engine's life,
so it is absorbed into the overlay function). -/
structure SrcObj where
  overlay : Component → MatGrid → MatGrid

/-- `FDTD.init_source_xx` (lines 196–218): `for so in self.src_list:
so.set_pointwise_source_xx(self.material_xx, self.space)` — sequential over
the source list in registration order. -/
def initSourceComp (c : Component) (srcs : List SrcObj) (g : MatGrid) :
    MatGrid :=
  srcs.foldl (fun g so => so.overlay c g) g

/-- A store of list values indexed by address, with an allocation frontier:
addresses below `next` are allocated.  Models the Python heap cells holding
the caller's `geom_list`/`src_list` and the engine's deep copies. -/
structure Store (α : Type) where
  mem : Nat → α
  next : Nat

/-- Mutate the value held at an address (a caller-side list mutation). -/
def Store.write {α : Type} (st : Store α) (a : Nat) (v : α) : Store α :=
  ⟨fun j => if j = a then v else st.mem j, st.next⟩

/-- `deepcopy`: allocate a fresh cell holding a copy of the value at `a`;
the copy shares no mutable cell with the original. -/
def Store.deepcopy {α : Type} (st : Store α) (a : Nat) : Store α × Nat :=
  (⟨fun j => if j = st.next then st.mem a else st.mem j, st.next + 1⟩, st.next)

/-- The engine's own references after construction. -/
structure EngineRefs where
  geomAddr : Nat
  srcAddr : Nat
deriving DecidableEq

/-- `FDTD.__init__` lines 38 and 50: `self.geom_list = deepcopy(geom_list)`
then `self.src_list = deepcopy(src_list)` — the engine keeps fresh copies of
the caller's two configuration lists. -/
def construct {α : Type} (st : Store α) (callerGeom callerSrc : Nat) :
    Store α × EngineRefs :=
  let g := st.deepcopy callerGeom
  let s := g.1.deepcopy callerSrc
  (s.1, ⟨g.2, s.2⟩)

/-- What the engine reads from the store: its own geometry and source lists.
All of its later behavior (material construction, source injection,
stepping) is a function of this view together with state the engine owns. -/
def engineView {α : Type} (st : Store α) (e : EngineRefs) : α × α :=
  (st.mem e.geomAddr, st.mem e.srcAddr)

/-- A concrete caller store: address 0 holds the geometry list, address 1
the source list (element values stand in for the list objects). -/
def st0 : Store (List Nat) :=
  ⟨fun j => if j = 0 then [1, 2] else if j = 1 then [3] else [], 2⟩

/-- The argument record of a `write_hdf5` call made by `FDTD.write_ex`: the
lower and upper index bounds passed along with the whole Ex array. -/
structure WriteCall where
  lowIdx : Idx3
  highIdx : Idx3
deriving DecidableEq

/-- `FDTD.write_ex` (lines 433–452): with `low` absent the lower index is
`(0, 0, 0)` and — because the second conditional also tests `low` — the
upper index starts from `self.ex.shape`; every upper index is then
incremented by one and `write_hdf5(self.ex, name, low_idx, high_idx)` is
invoked.  With `low` present both bounds go through
`space.space_to_ex_index` (a missing `high` would make that call raise,
hence the `Option` result). -/
def write_ex_call (spaceToExIndex : Coord → Idx3) (exShape : Idx3)
    (low high : Option Coord) : Option WriteCall :=
  let lowIdx : Idx3 :=
    match low with
    | none => (0, 0, 0)
    | some l => spaceToExIndex l
  let highIdx0 : Option Idx3 :=
    match low with
    | none => some exShape
    | some _ => high.map spaceToExIndex
  highIdx0.map (fun h => ⟨lowIdx, (h.1 + 1, h.2.1 + 1, h.2.2 + 1)⟩)

/-- `FDTD.write_hx` (lines 460–461) is `pass`: no `write_hdf5` call. -/
def write_hx_call : Option WriteCall := none

/-- `FDTD.write_hy` (lines 463–464) is `pass`: no `write_hdf5` call. -/
def write_hy_call : Option WriteCall := none

/-- `FDTD.write_hz` (lines 466–467) is `pass`: no `write_hdf5` call. -/
def write_hz_call : Option WriteCall := none

/-! ## Helper lemmas -/

/-- An element taken at a position past the first part of an append lies in
the second part. -/
theorem get_append_right_mem {α : Type} (l1 l2 : List α) (i : Nat)
    (h1 : l1.length ≤ i) (h : i < (l1 ++ l2).length) :
    (l1 ++ l2).get ⟨i, h⟩ ∈ l2 := by
  rw [List.get_eq_getElem, List.getElem_append_right h1]
  exact List.getElem_mem _

/-- An element taken at a position inside the first part of an append lies
in the first part. -/
theorem get_append_left_mem {α : Type} (l1 l2 : List α) (i : Nat)
    (h1 : i < l1.length) (h : i < (l1 ++ l2).length) :
    (l1 ++ l2).get ⟨i, h⟩ ∈ l1 := by
  rw [List.get_eq_getElem, List.getElem_append_left h1]
  exact List.getElem_mem _

/-- Membership in the `ndindex` iteration list is exactly per-axis
boundedness. -/
theorem mem_rangeIdx {a b c : Nat} {idx : Idx3} :
    idx ∈ rangeIdx a b c ↔ idx.1 < a ∧ idx.2.1 < b ∧ idx.2.2 < c := by
  obtain ⟨i, j, k⟩ := idx
  simp only [rangeIdx, List.mem_flatten, List.mem_map, List.mem_range]
  constructor
  · rintro ⟨l, ⟨i', hi', rfl⟩, hmem⟩
    rw [List.mem_flatten] at hmem
    obtain ⟨l2, ⟨j', hj', rfl⟩, hmem2⟩ := by
      simpa only [List.mem_map, List.mem_range] using hmem
    obtain ⟨k', hk', hk⟩ := by
      simpa only [List.mem_map, List.mem_range] using hmem2
    injection hk with h1 h2
    injection h2 with h2 h3
    subst h1; subst h2; subst h3
    exact ⟨hi', hj', hk'⟩
  · rintro ⟨hi, hj, hk⟩
    refine ⟨_, ⟨i, hi, rfl⟩, ?_⟩
    rw [List.mem_flatten]
    refine ⟨(List.range c).map (fun k => (i, j, k)), ?_, ?_⟩
    · exact List.mem_map.mpr ⟨j, List.mem_range.mpr hj, rfl⟩
    · exact List.mem_map.mpr ⟨k, List.mem_range.mpr hk, rfl⟩

/-- A fold of per-index writes assigns every index of the list its own value
and leaves other indices untouched (writes to distinct indices are
independent; a revisited index would keep its last write). -/
theorem foldl_writeCell (l : List Idx3) (v : Idx3 → Cell) (g0 : MatGrid)
    (j : Idx3) :
    (l.foldl (fun g idx => writeCell g idx (v idx)) g0) j =
      if j ∈ l then some (v j) else g0 j := by
  induction l generalizing g0 with
  | nil => simp
  | cons x xs ih =>
    rw [List.foldl_cons, ih]
    by_cases hj : j ∈ xs
    · simp [hj, List.mem_cons]
    · by_cases hx : j = x
      · subst hx; simp [hj, writeCell]
      · simp [hx, hj, writeCell, List.mem_cons]

/-- Folds of pointwise-equal step functions agree. -/
theorem foldl_fun_congr {α β : Type} (l : List β) (f g : α → β → α) (a : α)
    (h : ∀ acc x, f acc x = g acc x) : l.foldl f a = l.foldl g a := by
  induction l generalizing a with
  | nil => rfl
  | cons x xs ih => rw [List.foldl_cons, List.foldl_cons, h, ih]

/-- A guarded write fold whose guard never trips from a clean start equals
the plain write fold with a clean flag. -/
theorem foldl_guarded (l : List Idx3) (v : Idx3 → Cell) (g0 : MatGrid) :
    l.foldl
      (fun p idx => if p.2 then p else (writeCell p.1 idx (v idx), false))
      (g0, false) =
      (l.foldl (fun g idx => writeCell g idx (v idx)) g0, false) := by
  induction l generalizing g0 with
  | nil => rfl
  | cons x xs ih =>
    rw [List.foldl_cons, List.foldl_cons]
    exact ih _

/-! ## Claims -/

/-- Claim C1: for any scheduling of the two thread batches of `FDTD.step`
(any permutation of each batch's task list), the linearised trace places
every electric-field update strictly before every magnetic-field update,
and both batches — in particular all three magnetic updates — complete
within the call's trace.  Since every call has this shape, consecutive
calls alternate E-phase then H-phase. -/
theorem step_e_before_h (t1 t2 : List Ev)
    (h1 : t1.Perm ePhaseBatch) (h2 : t2.Perm hPhaseBatch) :
    PhaseOrdered (stepTrace t1 t2) ∧
    (∀ e ∈ ePhaseBatch, e ∈ stepTrace t1 t2) ∧
    (∀ e ∈ hPhaseBatch, e ∈ stepTrace t1 t2) := by
  have hE : ∀ e ∈ ePhaseBatch, Ev.isUpdH e = false := by decide
  have hH : ∀ e ∈ hPhaseBatch, Ev.isUpdE e = false := by decide
  refine ⟨?_, ?_, ?_⟩
  · intro i j hi hj hiE hjH
    have hiLt : i < t1.length := by
      by_contra hcon
      push_neg at hcon
      have hmem : (stepTrace t1 t2).get ⟨i, hi⟩ ∈
          Ev.advance :: (t2 ++ [Ev.advance]) :=
        get_append_right_mem t1 (Ev.advance :: (t2 ++ [Ev.advance])) i hcon hi
      rcases List.mem_cons.mp hmem with hadv | hmem2
      · rw [hadv] at hiE; exact absurd hiE (by decide)
      · rcases List.mem_append.mp hmem2 with ht2 | hlast
        · have := hH _ (h2.subset ht2)
          rw [this] at hiE; exact absurd hiE (by decide)
        · have : (stepTrace t1 t2).get ⟨i, hi⟩ = Ev.advance :=
            List.mem_singleton.mp hlast
          rw [this] at hiE; exact absurd hiE (by decide)
    have hjGe : t1.length ≤ j := by
      by_contra hcon
      push_neg at hcon
      have hmem : (stepTrace t1 t2).get ⟨j, hj⟩ ∈ t1 :=
        get_append_left_mem t1 (Ev.advance :: (t2 ++ [Ev.advance])) j hcon hj
      have := hE _ (h1.subset hmem)
      rw [this] at hjH; exact absurd hjH (by decide)
    exact lt_of_lt_of_le hiLt hjGe
  · intro e he
    exact List.mem_append_left _ (h1.mem_iff.mpr he)
  · intro e he
    exact List.mem_append_right _
      (List.mem_cons_of_mem _ (List.mem_append_left _ (h2.mem_iff.mpr he)))

/-- Witness for claim C1 at the source's own batch order. -/
theorem step_e_before_h_witness :
    PhaseOrdered (stepTrace ePhaseBatch hPhaseBatch) ∧
    (∀ e ∈ ePhaseBatch, e ∈ stepTrace ePhaseBatch hPhaseBatch) ∧
    (∀ e ∈ hPhaseBatch, e ∈ stepTrace ePhaseBatch hPhaseBatch) :=
  step_e_before_h ePhaseBatch hPhaseBatch (List.Perm.refl _) (List.Perm.refl _)

/-- Claim C2: in the full 3D engine, each component's update pass invokes
every update rule with exactly its curl-partner arrays and spacings — the
source update methods coincide with the generic pass driven by the spec's
curl-pairing and spacing tables, for every state (hence for arbitrary
material rules). -/
theorem component_update_matches_curl_tables :
    ∀ (c : Component) (s : FDTDState),
      componentUpdate c s = specCurlUpdate c s := by
  intro c s
  cases c <;> rfl

/-- Claim C3: during Material Grid construction every in-bounds cell of a
component's array is assigned exactly once: the no-op stub when the claim's
boundary condition holds (for electric components a transverse index at the
upper edge, for magnetic components a transverse index of zero), and
otherwise the rule the covering geometric object's material produces for
the cell's index and physical coordinate. -/
theorem init_material_cell_assignment (c : Component) (cfg : MatCfg)
    (shape idx : Idx3) (h1 : idx.1 < shape.1) (h2 : idx.2.1 < shape.2.1)
    (h3 : idx.2.2 < shape.2.2) :
    initMaterialComp c cfg shape idx =
      some (if claimBoundary c shape idx then Cell.dummy c idx
            else Cell.fromMaterial c
              (cfg.objectOfPoint (cfg.indexToSpace c idx)) idx
              (cfg.indexToSpace c idx)) := by
  have hfold : initMaterialComp c cfg shape =
      (rangeIdx shape.1 shape.2.1 shape.2.2).foldl
        (fun g idx =>
          writeCell g idx
            (if srcBoundary c shape idx then Cell.dummy c idx
             else Cell.fromMaterial c
               (cfg.objectOfPoint (cfg.indexToSpace c idx)) idx
               (cfg.indexToSpace c idx)))
        (fun _ => none) := by
    apply foldl_fun_congr
    intro acc x
    by_cases hb : srcBoundary c shape x <;> simp [hb]
  rw [hfold, foldl_writeCell]
  rw [if_pos (mem_rangeIdx.mpr ⟨h1, h2, h3⟩)]
  have hbd : srcBoundary c shape idx = claimBoundary c shape idx := by
    cases c <;> rfl
  rw [hbd]

/-- Witness for claim C3: in a 2 × 2 × 2 Ex array the interior cell
`(0, 0, 0)` receives the material-produced rule of the covering object. -/
theorem init_material_cell_assignment_witness :
    initMaterialComp Component.ex cfg0 (2, 2, 2) (0, 0, 0) =
      some (Cell.fromMaterial Component.ex 0 (0, 0, 0) (0, 0, 0)) := by
  have h := init_material_cell_assignment Component.ex cfg0 (2, 2, 2)
    (0, 0, 0) (by decide) (by decide) (by decide)
  simpa [claimBoundary, transverseIdx, Component.isElectric, cfg0] using h

/-- Claim C4 (code bug): the three 1D TEM variants advance the half-step
counter by `5`, not `0.5`, on each phase: `TEMxFDTD.step()` started at
`n = 0` with `dt = 1` reaches `n = 5` after the first phase and `n = 10`
after the full call (the claim demands `0.5` and `1`), while the full 3D
engine advances by `0.5` per phase as claimed. -/
theorem temx_half_step_increment_is_five :
    (phase1Time Engine.temx 1 ⟨0, 0⟩).n = 5 ∧
    (stepTime Engine.temx 1 ⟨0, 0⟩).n = 10 ∧
    (phase1Time Engine.fdtd3d 1 ⟨0, 0⟩).n = 1/2 ∧
    (stepTime Engine.fdtd3d 1 ⟨0, 0⟩).n = 1 := by
  refine ⟨?_, ?_, ?_, ?_⟩ <;> norm_num [phase1Time, phase2Time, stepTime]

/-- Claim C5 (code bug): `TEzFDTD.step` breaks the invariant `t = n · dt`
because its second phase executes `t += dt` rather than `t = n * dt`: from
`n = 0, t = 0` with `dt = 1` one full step ends with `n = 1` but `t = 3/2`,
whereas the claim demands `t = n · dt = 1`. -/
theorem tez_time_not_n_times_dt :
    (stepTime Engine.tez 1 ⟨0, 0⟩).n = 1 ∧
    (stepTime Engine.tez 1 ⟨0, 0⟩).t = 3/2 ∧
    (stepTime Engine.tez 1 ⟨0, 0⟩).t ≠
      (stepTime Engine.tez 1 ⟨0, 0⟩).n * 1 := by
  refine ⟨?_, ?_, ?_⟩ <;> norm_num [phase1Time, phase2Time, stepTime]

/-- Claim C6: source injection walks the registered source list in order
for each component, so two sources compose in registration order — and
appending a source to the list post-composes its overlay. -/
theorem init_source_registration_order :
    (∀ (c : Component) (A B : SrcObj) (g : MatGrid),
      initSourceComp c [A, B] g = B.overlay c (A.overlay c g)) ∧
    (∀ (c : Component) (srcs : List SrcObj) (so : SrcObj) (g : MatGrid),
      initSourceComp c (srcs ++ [so]) g =
        so.overlay c (initSourceComp c srcs g)) := by
  constructor
  · intro c A B g; rfl
  · intro c srcs so g
    simp [initSourceComp, List.foldl_append]

/-- Claim C7 (code bug): `TEMxFDTD.step` updates exactly Ey (from Hx, Hz)
and then Hz (from the just-updated Ey and Ex), leaving the other four field
components untouched — but each of its two time advances adds `5` to the
half-step counter rather than the claimed `0.5`, so one call advances `n`
by `10` instead of `1`. -/
theorem temx_step_components_and_timing :
    ∀ s : FDTDState,
      (temxStep s).ex = s.ex ∧ (temxStep s).ez = s.ez ∧
      (temxStep s).hx = s.hx ∧ (temxStep s).hy = s.hy ∧
      (temxStep s).ey = updatePass s.matEy s.ey s.hx s.hz s.dt s.dz s.dx ∧
      (temxStep s).hz = updatePass s.matHz s.hz
        (updatePass s.matEy s.ey s.hx s.hz s.dt s.dz s.dx)
        s.ex s.dt s.dx s.dy ∧
      (temxStep s).ts.n = s.ts.n + 10 := by
  intro s
  refine ⟨rfl, rfl, rfl, rfl, rfl, rfl, ?_⟩
  show s.ts.n + 5 + 5 = s.ts.n + 10
  ring

/-- Counterexample to claim C8: with a classifier that covers every
coordinate except those of Hx, the Hx worker raises mid-loop, yet
`init_material` returns normally — the raised error is swallowed by the
thread join — and the returned state is partial: the Hx grid keeps the
boundary cells written before the failure while later cells are unassigned,
and the Ex grid is fully built.  So the error does not propagate out of the
construction call and a partial-success state is exposed. -/
theorem init_material_error_not_propagated :
    workerRaised cfgF8 shapes8 Component.hx = true ∧
    initMaterialJoin cfgF8 shapes8 Component.hx (0, 1, 0) =
      some (Cell.dummy Component.hx (0, 1, 0)) ∧
    initMaterialJoin cfgF8 shapes8 Component.hx (0, 1, 1) = none ∧
    initMaterialJoin cfgF8 shapes8 Component.ex (0, 0, 0) =
      some (Cell.fromMaterial Component.ex 0 (0, 0, 0) (0, 0, 0)) ∧
    ¬ NoPartialOnFailure cfgF8 shapes8 := by
  refine ⟨by decide, by decide, by decide, by decide, ?_⟩
  intro h
  have h1 := h ⟨Component.hx, by decide⟩ Component.ex (0, 0, 0)
  have h2 : initMaterialJoin cfgF8 shapes8 Component.ex (0, 0, 0) =
      some (Cell.fromMaterial Component.ex 0 (0, 0, 0) (0, 0, 0)) := by decide
  rw [h1] at h2
  exact Option.noConfusion h2

/-- Claim C8 as amended: a classification failure terminates only the
failing component's worker and is not re-raised at the join barrier;
`init_material` returns normally, and any component all of whose coordinates
the classifier covers is fully and correctly built even when another
component's worker failed. -/
theorem init_material_failure_contained (cfg : MatCfgF)
    (shapes : Component → Idx3) (c : Component)
    (hc : ∀ idx, (cfg.objectOfPoint (cfg.indexToSpace c idx)).isSome = true) :
    workerRaised cfg shapes c = false ∧
    ∀ idx, idx.1 < (shapes c).1 → idx.2.1 < (shapes c).2.1 →
      idx.2.2 < (shapes c).2.2 →
      initMaterialJoin cfg shapes c idx =
        some (if srcBoundary c (shapes c) idx then Cell.dummy c idx
              else Cell.fromMaterial c
                ((cfg.objectOfPoint (cfg.indexToSpace c idx)).getD 0) idx
                (cfg.indexToSpace c idx)) := by
  have key : initMaterialCompF c cfg (shapes c) =
      ((rangeIdx (shapes c).1 (shapes c).2.1 (shapes c).2.2).foldl
        (fun g idx => writeCell g idx
          (if srcBoundary c (shapes c) idx then Cell.dummy c idx
           else Cell.fromMaterial c
             ((cfg.objectOfPoint (cfg.indexToSpace c idx)).getD 0) idx
             (cfg.indexToSpace c idx)))
        (fun _ => none), false) := by
    rw [show initMaterialCompF c cfg (shapes c) =
        (rangeIdx (shapes c).1 (shapes c).2.1 (shapes c).2.2).foldl
          (fun p idx => if p.2 then p
            else (writeCell p.1 idx
              (if srcBoundary c (shapes c) idx then Cell.dummy c idx
               else Cell.fromMaterial c
                 ((cfg.objectOfPoint (cfg.indexToSpace c idx)).getD 0) idx
                 (cfg.indexToSpace c idx)), false))
          ((fun _ => none), false) from ?_]
    · exact foldl_guarded _ _ _
    · apply foldl_fun_congr
      intro acc x
      by_cases hacc : acc.2
      · simp [hacc]
      · obtain ⟨obj, hobj⟩ := Option.isSome_iff_exists.mp (hc x)
        by_cases hb : srcBoundary c (shapes c) x
        · simp [hacc, hb]
        · simp [hacc, hb, hobj]
  constructor
  · rw [workerRaised, key]
  · intro idx h1 h2 h3
    rw [initMaterialJoin, key]
    simp only
    rw [foldl_writeCell, if_pos (mem_rangeIdx.mpr ⟨h1, h2, h3⟩)]

/-- Witness for claim C8 as amended: under the same configuration in which
the Hx worker fails, the Ex component — whose coordinates are all covered —
is built normally and its worker reports no error. -/
theorem init_material_failure_contained_witness :
    workerRaised cfgF8 shapes8 Component.ex = false ∧
    initMaterialJoin cfgF8 shapes8 Component.ex (0, 0, 0) =
      some (Cell.fromMaterial Component.ex 0 (0, 0, 0) (0, 0, 0)) := by
  obtain ⟨hflag, hcell⟩ := init_material_failure_contained cfgF8 shapes8
    Component.ex (fun idx => rfl)
  refine ⟨hflag, ?_⟩
  have := hcell (0, 0, 0) (by decide) (by decide) (by decide)
  simpa [srcBoundary, cfgF8, tagC, shapes8] using this

/-- Claim C9: the constructor deep-copies the caller's geometry and source
lists, so any caller-side mutation of a pre-existing cell after
construction leaves the engine's view of its two lists — and hence all of
its subsequent stepping behavior, a function of that view — unchanged, and
the engine's copies hold exactly the values the caller's lists had at
construction time. -/
theorem deep_copy_isolates_engine {α : Type} (st : Store α)
    (cg cs : Nat) (hg : cg < st.next) (hs : cs < st.next)
    (a : Nat) (ha : a < st.next) (v : α) :
    engineView (((construct st cg cs).1).write a v) (construct st cg cs).2 =
      engineView (construct st cg cs).1 (construct st cg cs).2 ∧
    engineView (construct st cg cs).1 (construct st cg cs).2 =
      (st.mem cg, st.mem cs) := by
  have h1 : st.next ≠ a := by omega
  have h2 : st.next + 1 ≠ a := by omega
  have h3 : cs ≠ st.next := by omega
  constructor
  · simp [engineView, construct, Store.write, Store.deepcopy, h1, h2]
  · simp [engineView, construct, Store.deepcopy, h3]

/-- Witness for claim C9: a concrete caller store whose geometry list at
address 0 is overwritten after construction; the engine's view is the
original lists. -/
theorem deep_copy_isolates_engine_witness :
    engineView (((construct st0 0 1).1).write 0 [9]) (construct st0 0 1).2 =
      engineView (construct st0 0 1).1 (construct st0 0 1).2 ∧
    engineView (construct st0 0 1).1 (construct st0 0 1).2 =
      (st0.mem 0, st0.mem 1) :=
  deep_copy_isolates_engine st0 0 1 (by decide) (by decide) 0 (by decide) [9]

/-- Claim C10: every `FDTD.step` call spawns the file-export methods
alongside the field updates — `write_hx`/`write_hy`/`write_hz` (no-ops) in
the E-phase batch and `write_ex`/`write_ey`/`write_ez` in the H-phase
batch — and `write_ex` invoked with no arguments calls the HDF5 writer on
the whole Ex array with upper index bounds equal to the array shape plus
one in every axis. -/
theorem step_spawns_export_methods :
    (Ev.writeH Component.hx ∈ ePhaseBatch ∧
     Ev.writeH Component.hy ∈ ePhaseBatch ∧
     Ev.writeH Component.hz ∈ ePhaseBatch) ∧
    (Ev.writeE Component.ex ∈ hPhaseBatch ∧
     Ev.writeE Component.ey ∈ hPhaseBatch ∧
     Ev.writeE Component.ez ∈ hPhaseBatch) ∧
    (write_hx_call = none ∧ write_hy_call = none ∧ write_hz_call = none) ∧
    (∀ (f : Coord → Idx3) (shape : Idx3),
      write_ex_call f shape none none =
        some ⟨(0, 0, 0), (shape.1 + 1, shape.2.1 + 1, shape.2.2 + 1)⟩) := by
  refine ⟨by decide, by decide, ⟨rfl, rfl, rfl⟩, ?_⟩
  intro f shape
  rfl

end Gmes
